import Mathlib

/-!
FinCalc-CLI: the time-value-of-money formula functions

A shallow embedding of the four formula functions of `src/mac/basic/main.cpp`
(namespace `Mac`) and of `src/windows/full/main.cpp` (namespace `Windows`).

Modelling conventions:

* a C++ `double` is a real number (`ℝ`); the arithmetic operators are the field
  operations of `ℝ`;
* `pow(x, y)` of `<cmath>` is the real power `x ^ y` (`Real.rpow`) and `log(x)` is
  the natural logarithm `Real.log x`;
* `throw std::invalid_argument(msg)` is `Except.error (Exception.invalid_argument msg)`,
  a normal `return v` is `Except.ok v`;
* a C++ default argument (`double pmt = 0`) is passed explicitly as `0`;
* where a property must hold whatever the rounding of `double` arithmetic (which divisors
  and logarithm arguments the code evaluates), the operations are left abstract
  (`DoubleArith`) and only the exact comparisons of the guards are used;
* a C++ `int` is a 32-bit integer: each `+` and `-` is followed by `wrapInt`.
-/

namespace FinCalc

/-- The exceptions the formula functions throw: `std::invalid_argument`, carrying the
message given to its constructor. -/
inductive Exception where
  | invalid_argument (what : String)
  deriving DecidableEq

/-- The call threw `std::invalid_argument` (with whatever message). -/
def failsInvalidArgument {α : Type} : Except Exception α → Bool
  | .error (.invalid_argument _) => true
  | .ok _ => false

/-- The arithmetic of `double` whose result depends on rounding, overflow and underflow:
the four operators and `pow`, `log` of `<cmath>`, left abstract. The comparisons of two
doubles (`<`, `<=`, `==`, `!=`) are exact and are read on the values themselves. -/
structure DoubleArith where
  /-- The operator `+` on doubles. -/
  add : ℝ → ℝ → ℝ
  /-- The operator `-` on doubles. -/
  sub : ℝ → ℝ → ℝ
  /-- The operator `*` on doubles. -/
  mul : ℝ → ℝ → ℝ
  /-- The operator `/` on doubles. -/
  div : ℝ → ℝ → ℝ
  /-- The function `pow` of `<cmath>`. -/
  pow : ℝ → ℝ → ℝ
  /-- The function `log` of `<cmath>`. -/
  log : ℝ → ℝ

/-- Exact real arithmetic: the reading of `double` used for the formula functions. -/
noncomputable def exactArith : DoubleArith :=
  ⟨fun x y => x + y, fun x y => x - y, fun x y => x * y, fun x y => x / y,
    fun x y => x ^ y, Real.log⟩

namespace Mac

/-- Embedding of `calculate_future_value` (src/mac/basic/main.cpp, lines 31-39). -/
noncomputable def calculate_future_value (pv i n pmt : ℝ) : Except Exception ℝ :=
  if n < 0 then
    .error (.invalid_argument "Number of periods cannot be negative.")
  else if i = 0 then
    .ok (pv + pmt * n)
  else
    .ok (pv * (1 + i) ^ n + pmt * ((1 + i) ^ n - 1) / i)

/-- Embedding of `calculate_present_value` (src/mac/basic/main.cpp, lines 42-50). -/
noncomputable def calculate_present_value (fv i n pmt : ℝ) : Except Exception ℝ :=
  if n < 0 then
    .error (.invalid_argument "Number of periods cannot be negative.")
  else if i = 0 then
    .ok (fv - pmt * n)
  else
    .ok ((fv - pmt * ((1 + i) ^ n - 1) / i) / (1 + i) ^ n)

/-- Embedding of the four-argument `calculate_interest_rate`
(src/mac/basic/main.cpp, lines 53-65). The result is a percentage. -/
noncomputable def calculate_interest_rate (fv pv n pmt : ℝ) : Except Exception ℝ :=
  if pmt ≠ 0 then
    .error (.invalid_argument "Payment must be zero for interest rate calculation.")
  else if n ≤ 0 then
    .error (.invalid_argument "Number of periods must be greater than zero.")
  else if pv ≤ 0 then
    .error (.invalid_argument "Present value must be greater than zero.")
  else
    .ok (100 * ((fv / pv) ^ (1 / n) - 1))

/-- Embedding of `calculate_number_of_years` (src/mac/basic/main.cpp, lines 68-79). -/
noncomputable def calculate_number_of_years (fv pv i pmt : ℝ) : Except Exception ℝ :=
  if pmt ≠ 0 then
    .error (.invalid_argument "Payment must be zero for calculating number of periods.")
  else if i = 0 then
    .error (.invalid_argument
      "Interest rate cannot be zero for calculating number of periods.")
  else if fv ≤ 0 ∨ pv ≤ 0 then
    .error (.invalid_argument "Future and present values must be greater than zero.")
  else
    .ok (Real.log (fv / pv) / Real.log (1 + i))

/-- The function `calculate_future_value` (src/mac/basic/main.cpp, lines 31-39) over an
arbitrary arithmetic `A`, returning with its value the divisors of the divisions it
evaluates, in order: none on the zero-rate branch (line 36), `i` on the general branch
(line 38). -/
noncomputable def calculate_future_value_traced (A : DoubleArith) (pv i n pmt : ℝ) :
    Except Exception (ℝ × List ℝ) :=
  if n < 0 then
    .error (.invalid_argument "Number of periods cannot be negative.")
  else if i = 0 then
    .ok (A.add pv (A.mul pmt n), [])
  else
    .ok (A.add (A.mul pv (A.pow (A.add 1 i) n))
      (A.div (A.mul pmt (A.sub (A.pow (A.add 1 i) n) 1)) i), [i])

/-- The function `calculate_present_value` (src/mac/basic/main.cpp, lines 42-50) over an
arbitrary arithmetic `A`, returning with its value the divisors of the divisions it
evaluates, in order: none on the zero-rate branch (line 47), `i` and `pow(1 + i, n)` on
the general branch (line 49). -/
noncomputable def calculate_present_value_traced (A : DoubleArith) (fv i n pmt : ℝ) :
    Except Exception (ℝ × List ℝ) :=
  if n < 0 then
    .error (.invalid_argument "Number of periods cannot be negative.")
  else if i = 0 then
    .ok (A.sub fv (A.mul pmt n), [])
  else
    .ok (A.div (A.sub fv (A.div (A.mul pmt (A.sub (A.pow (A.add 1 i) n) 1)) i))
      (A.pow (A.add 1 i) n), [i, A.pow (A.add 1 i) n])

end Mac

namespace Windows

/-- Embedding of `calculate_future_value` (src/windows/full/main.cpp, lines 34-42). -/
noncomputable def calculate_future_value (pv i n pmt : ℝ) : Except Exception ℝ :=
  if n < 0 then
    .error (.invalid_argument "Number of periods cannot be negative.")
  else if i = 0 then
    .ok (pv + pmt * n)
  else
    .ok (pv * (1 + i) ^ n + pmt * ((1 + i) ^ n - 1) / i)

/-- Embedding of `calculate_present_value` (src/windows/full/main.cpp, lines 45-53). -/
noncomputable def calculate_present_value (fv i n pmt : ℝ) : Except Exception ℝ :=
  if n < 0 then
    .error (.invalid_argument "Number of periods cannot be negative.")
  else if i = 0 then
    .ok (fv - pmt * n)
  else
    .ok ((fv - pmt * ((1 + i) ^ n - 1) / i) / (1 + i) ^ n)

/-- Embedding of the three-argument `calculate_interest_rate`
(src/windows/full/main.cpp, lines 56-64). -/
noncomputable def calculate_interest_rate (fv pv n : ℝ) : Except Exception ℝ :=
  if n ≤ 0 then
    .error (.invalid_argument "Number of periods must be greater than zero.")
  else if pv ≤ 0 then
    .error (.invalid_argument "Present value must be greater than zero.")
  else
    .ok (100 * ((fv / pv) ^ (1.0 / n) - 1))

/-- Embedding of `calculate_number_of_periods` (src/windows/full/main.cpp, lines 67-75). -/
noncomputable def calculate_number_of_periods (fv pv i : ℝ) : Except Exception ℝ :=
  if i ≤ 0 then
    .error (.invalid_argument "Interest rate must be greater than zero.")
  else if fv ≤ 0 ∨ pv ≤ 0 then
    .error (.invalid_argument "Future and present values must be greater than zero.")
  else
    .ok (Real.log (fv / pv) / Real.log (1 + i))

/-- The value a 32-bit `int` holds after an arithmetic operation whose mathematical
result is `x`: `x` itself when `-2^31 ≤ x < 2^31`, and otherwise `x` reduced modulo `2^32`
into that range (two's complement wrap-around, what the compiled code does; signed
overflow is undefined behaviour in C++). -/
def wrapInt (x : Int) : Int :=
  (x + 2147483648) % 4294967296 - 2147483648

/-- The classification `isdigit` of `<cctype>` on a key code: the characters `'0'` (48)
to `'9'` (57). -/
def isdigit (key : Int) : Bool :=
  decide (48 ≤ key) && decide (key ≤ 57)

/-- The loop of `menu_selection` (src/windows/full/main.cpp, lines 95-115), started with
the current value of `selected` and the key codes `_getch()` will deliver. An `int` is a
32-bit integer: every `+` and `-` is followed by `wrapInt`, and `%` is the truncating
remainder `Int.tmod`. The first component lists the value of `selected` at each call of
`display_menu`; the second is the returned index, or `none` when the keys run out before
ENTER or an accepted digit (the loop is then waiting in `_getch()`). -/
def menu_selection_loop (numOptions : Int) : Int → List Int → List Int × Option Int
  | selected, [] => ([selected], none)
  | selected, key :: rest =>
    if key = 224 then
      match rest with
      | [] => ([selected], none)
      | key2 :: rest2 =>
        if key2 = 72 then
          let r := menu_selection_loop numOptions
            ((wrapInt (wrapInt (selected - 1) + numOptions)).tmod numOptions) rest2
          (selected :: r.1, r.2)
        else if key2 = 80 then
          let r := menu_selection_loop numOptions
            ((wrapInt (selected + 1)).tmod numOptions) rest2
          (selected :: r.1, r.2)
        else
          let r := menu_selection_loop numOptions selected rest2
          (selected :: r.1, r.2)
    else if key = 13 then
      ([selected], some selected)
    else if isdigit key = true then
      if wrapInt (key - 48) ≥ 1 ∧ wrapInt (key - 48) ≤ numOptions then
        ([selected], some (wrapInt (wrapInt (key - 48) - 1)))
      else
        let r := menu_selection_loop numOptions selected rest
        (selected :: r.1, r.2)
    else
      let r := menu_selection_loop numOptions selected rest
      (selected :: r.1, r.2)

/-- Embedding of `menu_selection` (src/windows/full/main.cpp, lines 92-116): the loop
started with `selected = 0`. -/
def menu_selection (numOptions : Int) (keys : List Int) : List Int × Option Int :=
  menu_selection_loop numOptions 0 keys

end Windows

/-! ## The validated input loop -/

/-- Embedding of `getDouble` (lines 7-28 of src/mac/basic/main.cpp, lines 10-31 of
src/windows/full/main.cpp; the two are identical). The input is the list of outcomes of
the successive extractions `std::cin >> value`: `none` when the extraction fails (the
rest of the line is then discarded), `some value` when it reads a number. The value type
is any linearly ordered type with a zero, such as `ℝ`. The first component is what is
written to `std::cout`; the second is the returned value with the entries left unread,
or `none` when the entries run out before a value is accepted (the call has prompted and
is waiting for input). -/
def getDouble {α : Type} [LinearOrder α] [Zero α] (prompt : String)
    (positive nonzero : Bool) : List (Option α) → List String × Option (α × List (Option α))
  | [] => ([prompt], none)
  | none :: rest =>
    let r := getDouble prompt positive nonzero rest
    (prompt :: "Invalid input. Please enter a numeric value.\n" :: r.1, r.2)
  | some value :: rest =>
    if positive = true ∧ value < 0 then
      let r := getDouble prompt positive nonzero rest
      (prompt :: "Value must be positive. Try again.\n" :: r.1, r.2)
    else if nonzero = true ∧ value = 0 then
      let r := getDouble prompt positive nonzero rest
      (prompt :: "Value must be non-zero. Try again.\n" :: r.1, r.2)
    else
      ([prompt], some (value, rest))

/-- An invalid entry, in the words of the specification: non-numeric, or negative when
positivity is required, or zero when non-zero is required. -/
def invalidEntry {α : Type} [LinearOrder α] [Zero α] (positive nonzero : Bool) :
    Option α → Bool
  | none => true
  | some v => (positive && decide (v < 0)) || (nonzero && decide (v = 0))

/-- The error message `getDouble` writes for an invalid entry (source lines 15, 19 and 23
of src/mac/basic/main.cpp), the three tests being made in this order. -/
def errorMessage {α : Type} [LinearOrder α] [Zero α] (positive : Bool) : Option α → String
  | none => "Invalid input. Please enter a numeric value.\n"
  | some v =>
    if positive = true ∧ v < 0 then "Value must be positive. Try again.\n"
    else "Value must be non-zero. Try again.\n"

/-- Re-prompting, in the words of the specification: for each invalid entry the prompt
followed by an error message, and then the prompt once more. -/
def repromptOutput {α : Type} [LinearOrder α] [Zero α] (prompt : String) (positive : Bool) :
    List (Option α) → List String
  | [] => [prompt]
  | e :: es => prompt :: errorMessage positive e :: repromptOutput prompt positive es

/-- Two calls have the same outcome: both throw `std::invalid_argument`, or both return
the same value. -/
def sameOutcome (a b : Except Exception ℝ) : Prop :=
  (failsInvalidArgument a = true ∧ failsInvalidArgument b = true) ∨
    ∃ v, a = .ok v ∧ b = .ok v

/-! ## Contracts of the four formula functions -/

open Mac

/-- C1: `calculate_future_value` throws `invalid_argument` exactly when `n < 0`; for
`n ≥ 0` it returns `pv + pmt·n` when `i = 0` and
`pv·(1+i)^n + pmt·((1+i)^n − 1)/i` when `i ≠ 0`. In particular
`future_value(100, 0, 5, 10) = 150`, and `future_value(pv, i, -1)` throws. -/
theorem calculate_future_value_contract (pv i n pmt : ℝ) :
    (failsInvalidArgument (calculate_future_value pv i n pmt) = true ↔ n < 0) ∧
    (0 ≤ n → i = 0 → calculate_future_value pv i n pmt = .ok (pv + pmt * n)) ∧
    (0 ≤ n → i ≠ 0 → calculate_future_value pv i n pmt
        = .ok (pv * (1 + i) ^ n + pmt * ((1 + i) ^ n - 1) / i)) ∧
    calculate_future_value 100 0 5 10 = .ok 150 ∧
    failsInvalidArgument (calculate_future_value pv i (-1) 0) = true := by
  refine ⟨?_, ?_, ?_, ?_, ?_⟩
  · unfold calculate_future_value
    by_cases hn : n < 0
    · simp [hn, failsInvalidArgument]
    · by_cases hi : i = 0 <;> simp [hn, hi, failsInvalidArgument]
  · intro hn hi
    simp [calculate_future_value, not_lt.mpr hn, hi]
  · intro hn hi
    simp [calculate_future_value, not_lt.mpr hn, hi]
  · simp [calculate_future_value]
    norm_num
  · simp [calculate_future_value, failsInvalidArgument]

/-- The future-value contract at the specification's two sample calls: the zero-rate call
`future_value(100, 0, 5, 10)` and the negative-period call `future_value(100, 0.08, -1)`,
and at a compounding call `future_value(100, 1, 2, 10)`. -/
theorem calculate_future_value_contract_witness :
    calculate_future_value 100 0 5 10 = .ok (100 + 10 * 5) ∧
    failsInvalidArgument (calculate_future_value 100 0.08 (-1) 0) = true ∧
    calculate_future_value 100 1 2 10
      = .ok (100 * (1 + 1) ^ (2 : ℝ) + 10 * ((1 + 1) ^ (2 : ℝ) - 1) / 1) :=
  ⟨(calculate_future_value_contract 100 0 5 10).2.1 (by norm_num) rfl,
   (calculate_future_value_contract 100 0.08 (-1) 0).1.mpr (by norm_num),
   (calculate_future_value_contract 100 1 2 10).2.2.1 (by norm_num) (by norm_num)⟩

/-- C2: `calculate_present_value` (both builds) throws `invalid_argument` exactly when
`n < 0`; for `n ≥ 0` it returns `fv − pmt·n` when `i = 0` and
`(fv − pmt·((1+i)^n − 1)/i) / (1+i)^n` when `i ≠ 0`. -/
theorem calculate_present_value_contract (fv i n pmt : ℝ) :
    ((failsInvalidArgument (calculate_present_value fv i n pmt) = true ↔ n < 0) ∧
     (0 ≤ n → i = 0 → calculate_present_value fv i n pmt = .ok (fv - pmt * n)) ∧
     (0 ≤ n → i ≠ 0 → calculate_present_value fv i n pmt
        = .ok ((fv - pmt * ((1 + i) ^ n - 1) / i) / (1 + i) ^ n))) ∧
    ((failsInvalidArgument (Windows.calculate_present_value fv i n pmt) = true ↔ n < 0) ∧
     (0 ≤ n → i = 0 → Windows.calculate_present_value fv i n pmt = .ok (fv - pmt * n)) ∧
     (0 ≤ n → i ≠ 0 → Windows.calculate_present_value fv i n pmt
        = .ok ((fv - pmt * ((1 + i) ^ n - 1) / i) / (1 + i) ^ n))) := by
  refine ⟨⟨?_, ?_, ?_⟩, ⟨?_, ?_, ?_⟩⟩
  · unfold calculate_present_value
    by_cases hn : n < 0
    · simp [hn, failsInvalidArgument]
    · by_cases hi : i = 0 <;> simp [hn, hi, failsInvalidArgument]
  · intro hn hi
    simp [calculate_present_value, not_lt.mpr hn, hi]
  · intro hn hi
    simp [calculate_present_value, not_lt.mpr hn, hi]
  · unfold Windows.calculate_present_value
    by_cases hn : n < 0
    · simp [hn, failsInvalidArgument]
    · by_cases hi : i = 0 <;> simp [hn, hi, failsInvalidArgument]
  · intro hn hi
    simp [Windows.calculate_present_value, not_lt.mpr hn, hi]
  · intro hn hi
    simp [Windows.calculate_present_value, not_lt.mpr hn, hi]

/-- The present-value contract at three concrete calls: a negative period count, a
zero-rate call and a compounding call. -/
theorem calculate_present_value_contract_witness :
    failsInvalidArgument (calculate_present_value 150 0 (-1) 10) = true ∧
    calculate_present_value 150 0 5 10 = .ok (150 - 10 * 5) ∧
    Windows.calculate_present_value 430 1 2 10
      = .ok ((430 - 10 * ((1 + 1) ^ (2 : ℝ) - 1) / 1) / (1 + 1) ^ (2 : ℝ)) :=
  ⟨(calculate_present_value_contract 150 0 (-1) 10).1.1.mpr (by norm_num),
   (calculate_present_value_contract 150 0 5 10).1.2.1 (by norm_num) rfl,
   (calculate_present_value_contract 430 1 2 10).2.2.2 (by norm_num) (by norm_num)⟩

/-- C3: the four-argument `calculate_interest_rate` throws `invalid_argument` exactly
when `pmt ≠ 0` or `n ≤ 0` or `pv ≤ 0`, and on every other input returns
`100·((fv/pv)^(1/n) − 1)`; in particular every call with `pmt = 5` throws. -/
theorem calculate_interest_rate_contract (fv pv n pmt : ℝ) :
    (failsInvalidArgument (calculate_interest_rate fv pv n pmt) = true
        ↔ (pmt ≠ 0 ∨ n ≤ 0 ∨ pv ≤ 0)) ∧
    (¬ (pmt ≠ 0 ∨ n ≤ 0 ∨ pv ≤ 0) →
        calculate_interest_rate fv pv n pmt = .ok (100 * ((fv / pv) ^ (1 / n) - 1))) ∧
    failsInvalidArgument (calculate_interest_rate fv pv n 5) = true := by
  refine ⟨?_, ?_, ?_⟩
  · unfold calculate_interest_rate
    by_cases hp : pmt = 0 <;> by_cases hn : n ≤ 0 <;> by_cases hv : pv ≤ 0 <;>
      simp [hp, hn, hv, failsInvalidArgument]
  · intro h
    simp only [not_or, not_not] at h
    obtain ⟨hp, hn, hv⟩ := h
    simp [calculate_interest_rate, hp, hn, hv]
  · simp [calculate_interest_rate, failsInvalidArgument]

/-- The interest-rate contract at concrete calls: `interest_rate(2000, 1000, 10, 5)`
throws, and `interest_rate(2000, 1000, 10, 0)` returns the closed form. -/
theorem calculate_interest_rate_contract_witness :
    failsInvalidArgument (calculate_interest_rate 2000 1000 10 5) = true ∧
    calculate_interest_rate 2000 1000 10 0
      = .ok (100 * ((2000 / 1000) ^ ((1 : ℝ) / 10) - 1)) :=
  ⟨(calculate_interest_rate_contract 2000 1000 10 5).1.mpr (Or.inl (by norm_num)),
   (calculate_interest_rate_contract 2000 1000 10 0).2.1 (by norm_num)⟩

/-- C4: `calculate_number_of_years` throws `invalid_argument` exactly when `pmt ≠ 0` or
`i = 0` or `fv ≤ 0` or `pv ≤ 0`, and on every other input returns
`ln(fv/pv) / ln(1+i)`. -/
theorem calculate_number_of_years_contract (fv pv i pmt : ℝ) :
    (failsInvalidArgument (calculate_number_of_years fv pv i pmt) = true
        ↔ (pmt ≠ 0 ∨ i = 0 ∨ fv ≤ 0 ∨ pv ≤ 0)) ∧
    (¬ (pmt ≠ 0 ∨ i = 0 ∨ fv ≤ 0 ∨ pv ≤ 0) →
        calculate_number_of_years fv pv i pmt
          = .ok (Real.log (fv / pv) / Real.log (1 + i))) := by
  refine ⟨?_, ?_⟩
  · unfold calculate_number_of_years
    by_cases hp : pmt = 0 <;> by_cases hi : i = 0 <;> by_cases hf : fv ≤ 0 <;>
      by_cases hv : pv ≤ 0 <;> simp [hp, hi, hf, hv, failsInvalidArgument]
  · intro h
    simp only [not_or, not_not] at h
    obtain ⟨hp, hi, hf, hv⟩ := h
    simp [calculate_number_of_years, hp, hi, hf, hv]

/-- The number-of-periods contract at concrete calls: a zero-rate call throws, and
`number_of_periods(2000, 1000, 0.07, 0)` returns the closed form. -/
theorem calculate_number_of_years_contract_witness :
    failsInvalidArgument (calculate_number_of_years 2000 1000 0 0) = true ∧
    calculate_number_of_years 2000 1000 0.07 0
      = .ok (Real.log (2000 / 1000) / Real.log (1 + 0.07)) :=
  ⟨(calculate_number_of_years_contract 2000 1000 0 0).1.mpr (Or.inr (Or.inl rfl)),
   (calculate_number_of_years_contract 2000 1000 0.07 0).2 (by norm_num)⟩

/-! ## Algebraic relations between the four functions -/

/-- Taking the `n`-th root and then the `n`-th power gives back a positive number. -/
lemma root_rpow_self {x n : ℝ} (hx : 0 < x) (hn : n ≠ 0) : (x ^ (1 / n)) ^ n = x := by
  rw [one_div]
  exact Real.rpow_inv_rpow hx.le hn

/-- Raising a positive base `b ≠ 1` to the power `ln x / ln b` gives `x`. -/
lemma rpow_log_div_log {b x : ℝ} (hb : 0 < b) (hb1 : b ≠ 1) (hx : 0 < x) :
    b ^ (Real.log x / Real.log b) = x := by
  have hlog : Real.log b ≠ 0 := Real.log_ne_zero_of_pos_of_ne_one hb hb1
  rw [Real.rpow_def_of_pos hb, mul_div_cancel₀ _ hlog, Real.exp_log hx]

/-- C5: growth then discount. For `pv > 0`, `i > -1` and `n ≥ 0` the call
`calculate_future_value(pv, i, n)` returns some `fv`, and
`calculate_present_value(fv, i, n)` returns exactly `pv` (payment `0`). -/
theorem present_value_of_future_value (pv i n : ℝ) (_hpv : 0 < pv) (hi : -1 < i)
    (hn : 0 ≤ n) :
    ∃ fv, calculate_future_value pv i n 0 = .ok fv ∧
      calculate_present_value fv i n 0 = .ok pv := by
  have hb : (1 + i) ^ n ≠ 0 := (Real.rpow_pos_of_pos (by linarith) n).ne'
  by_cases hi0 : i = 0
  · exact ⟨pv, by simp [calculate_future_value, not_lt.mpr hn, hi0],
      by simp [calculate_present_value, not_lt.mpr hn, hi0]⟩
  · refine ⟨pv * (1 + i) ^ n, by simp [calculate_future_value, not_lt.mpr hn, hi0], ?_⟩
    simp only [calculate_present_value, not_lt.mpr hn, hi0, if_false, zero_mul, zero_div,
      sub_zero]
    rw [mul_div_assoc, div_self hb, mul_one]

/-- Growth then discount at `pv = 100`, `i = 1`, `n = 2`. -/
theorem present_value_of_future_value_witness :
    ∃ fv, calculate_future_value 100 1 2 0 = .ok fv ∧
      calculate_present_value fv 1 2 0 = .ok 100 :=
  present_value_of_future_value 100 1 2 (by norm_num) (by norm_num) (by norm_num)

/-- C6: discount then growth. For `fv > 0`, `i > -1` and `n ≥ 0` the call
`calculate_present_value(fv, i, n)` returns some `pv`, and
`calculate_future_value(pv, i, n)` returns exactly `fv` (payment `0`). -/
theorem future_value_of_present_value (fv i n : ℝ) (_hfv : 0 < fv) (hi : -1 < i)
    (hn : 0 ≤ n) :
    ∃ pv, calculate_present_value fv i n 0 = .ok pv ∧
      calculate_future_value pv i n 0 = .ok fv := by
  have hb : (1 + i) ^ n ≠ 0 := (Real.rpow_pos_of_pos (by linarith) n).ne'
  by_cases hi0 : i = 0
  · exact ⟨fv, by simp [calculate_present_value, not_lt.mpr hn, hi0],
      by simp [calculate_future_value, not_lt.mpr hn, hi0]⟩
  · refine ⟨fv / (1 + i) ^ n, by simp [calculate_present_value, not_lt.mpr hn, hi0], ?_⟩
    simp only [calculate_future_value, not_lt.mpr hn, hi0, if_false, zero_mul, zero_div,
      add_zero]
    rw [div_mul_cancel₀ _ hb]

/-- Discount then growth at `fv = 400`, `i = 1`, `n = 2`. -/
theorem future_value_of_present_value_witness :
    ∃ pv, calculate_present_value 400 1 2 0 = .ok pv ∧
      calculate_future_value pv 1 2 0 = .ok 400 :=
  future_value_of_present_value 400 1 2 (by norm_num) (by norm_num) (by norm_num)

/-- C7: for `fv > 0`, `pv > 0` and `n > 0` the call `calculate_interest_rate(fv, pv, n, 0)`
returns a percentage `r` that solves the zero-payment compounding equation:
`calculate_future_value(pv, r/100, n, 0)` returns `fv`, and `pv·(1 + r/100)^n = fv`. -/
theorem interest_rate_solves_compounding (fv pv n : ℝ) (hfv : 0 < fv) (hpv : 0 < pv)
    (hn : 0 < n) :
    ∃ r, calculate_interest_rate fv pv n 0 = .ok r ∧
      calculate_future_value pv (r / 100) n 0 = .ok fv ∧
      pv * (1 + r / 100) ^ n = fv := by
  have hq : 0 < fv / pv := div_pos hfv hpv
  have hroot : ((fv / pv) ^ (1 / n)) ^ n = fv / pv := root_rpow_self hq hn.ne'
  have hbase : 1 + 100 * ((fv / pv) ^ (1 / n) - 1) / 100 = (fv / pv) ^ (1 / n) := by ring
  have heq : pv * (1 + 100 * ((fv / pv) ^ (1 / n) - 1) / 100) ^ n = fv := by
    rw [hbase, hroot, mul_div_cancel₀ _ hpv.ne']
  refine ⟨100 * ((fv / pv) ^ (1 / n) - 1), ?_, ?_, heq⟩
  · simp [calculate_interest_rate, not_le.mpr hn, not_le.mpr hpv]
  · by_cases hr : 100 * ((fv / pv) ^ (1 / n) - 1) / 100 = 0
    · have h1 : pv = fv := by
        rw [hr] at heq
        simpa using heq
      rw [calculate_future_value, if_neg (not_lt.mpr hn.le), if_pos hr, zero_mul, add_zero, h1]
    · simp only [calculate_future_value, not_lt.mpr hn.le, hr, if_false, zero_mul, zero_div,
        add_zero]
      rw [heq]

/-- The rate solving `1000·(1 + r/100)^10 = 2000`. -/
theorem interest_rate_solves_compounding_witness :
    ∃ r, calculate_interest_rate 2000 1000 10 0 = .ok r ∧
      calculate_future_value 1000 (r / 100) 10 0 = .ok 2000 ∧
      1000 * (1 + r / 100) ^ (10 : ℝ) = 2000 :=
  interest_rate_solves_compounding 2000 1000 10 (by norm_num) (by norm_num) (by norm_num)

/-! ## Rejection policy of the solvers -/

/-- C8, as stated, fails: `calculate_interest_rate(0, 1, 1, 0)` has a non-positive future
value, yet it does not throw; it returns `-100` (percent). -/
theorem interest_rate_accepts_zero_future_value :
    (0 : ℝ) ≤ 0 ∧ calculate_interest_rate 0 1 1 0 = .ok (-100) ∧
      failsInvalidArgument (calculate_interest_rate 0 1 1 0) = false := by
  have h : calculate_interest_rate 0 1 1 0 = .ok (-100) := by
    norm_num [calculate_interest_rate]
  exact ⟨le_refl 0, h, by rw [h]; rfl⟩

/-- C8, amended: `calculate_number_of_years` throws `invalid_argument` whenever `pmt ≠ 0`
or `fv ≤ 0` or `pv ≤ 0`; `calculate_interest_rate` throws whenever `pmt ≠ 0` or `pv ≤ 0`,
but it does not test `fv`: with `pmt = 0`, `n > 0` and `pv > 0` it returns
`100·((fv/pv)^(1/n) − 1)` whatever the sign of `fv`. -/
theorem solvers_rejection_policy (fv pv x pmt : ℝ) :
    ((pmt ≠ 0 ∨ fv ≤ 0 ∨ pv ≤ 0) →
        failsInvalidArgument (calculate_number_of_years fv pv x pmt) = true) ∧
    ((pmt ≠ 0 ∨ pv ≤ 0) →
        failsInvalidArgument (calculate_interest_rate fv pv x pmt) = true) ∧
    (pmt = 0 → 0 < x → 0 < pv →
        calculate_interest_rate fv pv x pmt = .ok (100 * ((fv / pv) ^ (1 / x) - 1))) := by
  refine ⟨?_, ?_, ?_⟩
  · intro h
    unfold calculate_number_of_years
    by_cases hp : pmt = 0
    · by_cases hi : x = 0
      · simp [hp, hi, failsInvalidArgument]
      · have hv : fv ≤ 0 ∨ pv ≤ 0 := h.resolve_left (not_not.mpr hp)
        simp [hp, hi, hv, failsInvalidArgument]
    · simp [hp, failsInvalidArgument]
  · intro h
    unfold calculate_interest_rate
    by_cases hp : pmt = 0
    · by_cases hn : x ≤ 0
      · simp [hp, hn, failsInvalidArgument]
      · have hv : pv ≤ 0 := h.resolve_left (not_not.mpr hp)
        simp [hp, hn, hv, failsInvalidArgument]
    · simp [hp, failsInvalidArgument]
  · intro hp hx hv
    simp [calculate_interest_rate, hp, not_le.mpr hx, not_le.mpr hv]

/-- The rejection policy at concrete calls: the period solver rejects a zero future
value, the rate solver rejects a zero present value, and the rate solver accepts a
negative future value. -/
theorem solvers_rejection_policy_witness :
    failsInvalidArgument (calculate_number_of_years 0 1000 0.07 0) = true ∧
    failsInvalidArgument (calculate_interest_rate 2000 0 10 0) = true ∧
    calculate_interest_rate (-2000) 1000 1 0
      = .ok (100 * ((-2000 / 1000) ^ ((1 : ℝ) / 1) - 1)) :=
  ⟨(solvers_rejection_policy 0 1000 0.07 0).1 (Or.inr (Or.inl (le_refl 0))),
   (solvers_rejection_policy 2000 0 10 0).2.1 (Or.inr (le_refl 0)),
   (solvers_rejection_policy (-2000) 1000 1 0).2.2 rfl (by norm_num) (by norm_num)⟩

/-- C9, as stated, fails: `calculate_number_of_years(1, 2, 1, 0)` is accepted and returns
the negative number of periods `ln(1/2)/ln 2 = -1`. -/
theorem number_of_years_returns_negative :
    calculate_number_of_years 1 2 1 0 = .ok (-1) ∧ (-1 : ℝ) < 0 := by
  have hlog : Real.log 2 ≠ 0 := Real.log_ne_zero_of_pos_of_ne_one (by norm_num) (by norm_num)
  have hval : Real.log (1 / 2) / Real.log (1 + 1) = -1 := by
    rw [one_div, Real.log_inv, one_add_one_eq_two, neg_div, div_self hlog]
  refine ⟨?_, by norm_num⟩
  simp only [calculate_number_of_years, ne_eq, not_true_eq_false, if_false, one_ne_zero]
  rw [if_neg (by norm_num), hval]

/-- C9, amended: `calculate_future_value`, `calculate_present_value` and
`calculate_interest_rate` throw `invalid_argument` for every `n < 0`; the
number-of-periods solver does not test the sign of its result: on an accepted input with
`i > 0` it returns a number of periods that is non-negative exactly when `fv ≥ pv`. -/
theorem negative_periods_policy (a b n pmt fv pv i : ℝ) :
    (n < 0 → failsInvalidArgument (calculate_future_value a b n pmt) = true) ∧
    (n < 0 → failsInvalidArgument (calculate_present_value a b n pmt) = true) ∧
    (n < 0 → failsInvalidArgument (calculate_interest_rate a b n pmt) = true) ∧
    (0 < fv → 0 < pv → 0 < i →
        ∃ m, calculate_number_of_years fv pv i 0 = .ok m ∧ (0 ≤ m ↔ pv ≤ fv)) := by
  refine ⟨?_, ?_, ?_, ?_⟩
  · intro hn
    simp [calculate_future_value, hn, failsInvalidArgument]
  · intro hn
    simp [calculate_present_value, hn, failsInvalidArgument]
  · intro hn
    unfold calculate_interest_rate
    by_cases hp : pmt = 0 <;> simp [hp, hn.le, failsInvalidArgument]
  · intro hfv hpv hi
    refine ⟨Real.log (fv / pv) / Real.log (1 + i), ?_, ?_⟩
    · simp [calculate_number_of_years, hi.ne', not_le.mpr hfv, not_le.mpr hpv]
    · have hden : 0 < Real.log (1 + i) := Real.log_pos (by linarith)
      rw [div_nonneg_iff]
      constructor
      · rintro (⟨h, _⟩ | ⟨_, h⟩)
        · exact (one_le_div hpv).mp ((Real.log_nonneg_iff (div_pos hfv hpv)).mp h)
        · exact absurd hden (not_lt.mpr h)
      · intro h
        exact Or.inl ⟨(Real.log_nonneg_iff (div_pos hfv hpv)).mpr ((one_le_div hpv).mpr h),
          hden.le⟩

/-- The negative-period policy at concrete calls: the three functions taking `n` reject
`n = -1`, and `number_of_periods(2000, 1000, 0.07, 0)` is accepted with a non-negative
result because `1000 ≤ 2000`. -/
theorem negative_periods_policy_witness :
    failsInvalidArgument (calculate_future_value 100 0.08 (-1) 0) = true ∧
    failsInvalidArgument (calculate_present_value 100 0.08 (-1) 0) = true ∧
    failsInvalidArgument (calculate_interest_rate 100 0.08 (-1) 0) = true ∧
    ∃ m, calculate_number_of_years 2000 1000 0.07 0 = .ok m ∧ (0 ≤ m ↔ (1000 : ℝ) ≤ 2000) :=
  ⟨(negative_periods_policy 100 0.08 (-1) 0 2000 1000 0.07).1 (by norm_num),
   (negative_periods_policy 100 0.08 (-1) 0 2000 1000 0.07).2.1 (by norm_num),
   (negative_periods_policy 100 0.08 (-1) 0 2000 1000 0.07).2.2.1 (by norm_num),
   (negative_periods_policy 100 0.08 (-1) 0 2000 1000 0.07).2.2.2
     (by norm_num) (by norm_num) (by norm_num)⟩

/-- C10: for `fv > 0`, `pv > 0`, `i > -1` and `i ≠ 0` the call
`calculate_number_of_years(fv, pv, i, 0)` returns a number of periods `n` with
`pv·(1+i)^n = fv`, and when `n ≥ 0` the call `calculate_future_value(pv, i, n, 0)`
returns `fv`. The same holds for every `n` returned by the Windows build's
`calculate_number_of_periods(fv, pv, i)`, which returns whenever `i > 0`. -/
theorem number_of_periods_solves_compounding (fv pv i : ℝ) (hfv : 0 < fv) (hpv : 0 < pv)
    (hi : -1 < i) (hi0 : i ≠ 0) :
    (∃ n, calculate_number_of_years fv pv i 0 = .ok n ∧ pv * (1 + i) ^ n = fv ∧
      (0 ≤ n → calculate_future_value pv i n 0 = .ok fv)) ∧
    (∀ n, Windows.calculate_number_of_periods fv pv i = .ok n →
      pv * (1 + i) ^ n = fv ∧
      (0 ≤ n → Windows.calculate_future_value pv i n 0 = .ok fv)) ∧
    (0 < i → ∃ n, Windows.calculate_number_of_periods fv pv i = .ok n) := by
  have hb : 0 < 1 + i := by linarith
  have hb1 : 1 + i ≠ 1 := by
    intro h
    exact hi0 (by linarith)
  have hpow : pv * (1 + i) ^ (Real.log (fv / pv) / Real.log (1 + i)) = fv := by
    rw [rpow_log_div_log hb hb1 (div_pos hfv hpv), mul_div_cancel₀ _ hpv.ne']
  refine ⟨⟨Real.log (fv / pv) / Real.log (1 + i), ?_, hpow, ?_⟩, ?_, ?_⟩
  · simp [calculate_number_of_years, hi0, not_le.mpr hfv, not_le.mpr hpv]
  · intro hn
    simp only [calculate_future_value, not_lt.mpr hn, hi0, if_false, zero_mul, zero_div,
      add_zero]
    rw [hpow]
  · intro n hret
    unfold Windows.calculate_number_of_periods at hret
    by_cases hle : i ≤ 0
    · simp [hle] at hret
    · simp only [hle, not_le.mpr hfv, not_le.mpr hpv, or_self, if_false, Except.ok.injEq]
        at hret
      subst hret
      refine ⟨hpow, fun hn => ?_⟩
      simp only [Windows.calculate_future_value, not_lt.mpr hn, hi0, if_false, zero_mul,
        zero_div, add_zero]
      rw [hpow]
  · intro hpos
    exact ⟨Real.log (fv / pv) / Real.log (1 + i), by
      simp [Windows.calculate_number_of_periods, not_le.mpr hpos, not_le.mpr hfv,
        not_le.mpr hpv]⟩

/-- The number of periods needed to grow `1000` to `2000` at `7%`. -/
theorem number_of_periods_solves_compounding_witness :
    (∃ n, calculate_number_of_years 2000 1000 0.07 0 = .ok n ∧
      (1000 : ℝ) * (1 + 0.07) ^ n = 2000 ∧
      (0 ≤ n → calculate_future_value 1000 0.07 n 0 = .ok 2000)) ∧
    (∀ n, Windows.calculate_number_of_periods 2000 1000 0.07 = .ok n →
      (1000 : ℝ) * (1 + 0.07) ^ n = 2000 ∧
      (0 ≤ n → Windows.calculate_future_value 1000 0.07 n 0 = .ok 2000)) ∧
    ((0 : ℝ) < 0.07 → ∃ n, Windows.calculate_number_of_periods 2000 1000 0.07 = .ok n) :=
  number_of_periods_solves_compounding 2000 1000 0.07 (by norm_num) (by norm_num)
    (by norm_num) (by norm_num)

/-! ## Divisions and logarithms stay within their domain -/

/-- C11, as stated, fails: `calculate_present_value(100, -1, 1, 0)` is accepted (`n ≥ 0`)
and takes the general branch, where the second divisor `pow(1 + i, n) = pow(0, 1)` is
zero. -/
theorem present_value_divides_by_zero :
    failsInvalidArgument (calculate_present_value 100 (-1) 1 0) = false ∧
    (calculate_present_value_traced exactArith 100 (-1) 1 0).map Prod.snd
      = .ok [-1, 0] := by
  constructor
  · norm_num [calculate_present_value, failsInvalidArgument]
  · have hn : ¬ ((1 : ℝ) < 0) := by norm_num
    have hi : ¬ ((-1 : ℝ) = 0) := by norm_num
    simp only [calculate_present_value_traced, if_neg hn, if_neg hi, exactArith, Except.map]
    norm_num

/-- C11, amended: whatever the rounding of the arithmetic, `calculate_future_value` and
`calculate_present_value` are accepted exactly when `n ≥ 0`; every divisor
`calculate_future_value` evaluates is non-zero (the only one is `i`, on the branch where
`i ≠ 0`); `calculate_present_value` evaluates no divisor when `i = 0`, and otherwise the
divisor `i`, which is non-zero, and then `pow(1 + i, n)`, about which nothing is
promised. With exact arithmetic the traced functions return the values of
`calculate_future_value` and `calculate_present_value`. -/
theorem growth_discount_divisors (A : DoubleArith) (x i n pmt : ℝ) :
    ((calculate_future_value_traced exactArith x i n pmt).map Prod.fst
        = calculate_future_value x i n pmt ∧
      (calculate_present_value_traced exactArith x i n pmt).map Prod.fst
        = calculate_present_value x i n pmt) ∧
    ((failsInvalidArgument (calculate_future_value_traced A x i n pmt) = true ↔ n < 0) ∧
      (failsInvalidArgument (calculate_present_value_traced A x i n pmt) = true ↔ n < 0)) ∧
    (∀ v ds, calculate_future_value_traced A x i n pmt = .ok (v, ds) →
      ∀ d ∈ ds, d ≠ 0) ∧
    (∀ v ds, calculate_present_value_traced A x i n pmt = .ok (v, ds) →
      (ds = [] ∧ i = 0) ∨ (ds = [i, A.pow (A.add 1 i) n] ∧ i ≠ 0)) := by
  refine ⟨⟨?_, ?_⟩, ⟨?_, ?_⟩, ?_, ?_⟩
  · unfold calculate_future_value_traced calculate_future_value
    by_cases hn : n < 0
    · simp [hn, Except.map]
    · by_cases hi : i = 0 <;> simp [hn, hi, Except.map, exactArith]
  · unfold calculate_present_value_traced calculate_present_value
    by_cases hn : n < 0
    · simp [hn, Except.map]
    · by_cases hi : i = 0 <;> simp [hn, hi, Except.map, exactArith]
  · unfold calculate_future_value_traced
    by_cases hn : n < 0
    · simp [hn, failsInvalidArgument]
    · by_cases hi : i = 0 <;> simp [hn, hi, failsInvalidArgument]
  · unfold calculate_present_value_traced
    by_cases hn : n < 0
    · simp [hn, failsInvalidArgument]
    · by_cases hi : i = 0 <;> simp [hn, hi, failsInvalidArgument]
  · intro v ds h d hd
    unfold calculate_future_value_traced at h
    by_cases hn : n < 0
    · simp [hn] at h
    · by_cases hi : i = 0
      · simp only [if_neg hn, if_pos hi, Except.ok.injEq, Prod.mk.injEq] at h
        rw [← h.2] at hd
        simp at hd
      · simp only [if_neg hn, if_neg hi, Except.ok.injEq, Prod.mk.injEq] at h
        rw [← h.2, List.mem_singleton] at hd
        rw [hd]
        exact hi
  · intro v ds h
    unfold calculate_present_value_traced at h
    by_cases hn : n < 0
    · simp [hn] at h
    · by_cases hi : i = 0
      · simp only [if_neg hn, if_pos hi, Except.ok.injEq, Prod.mk.injEq] at h
        exact Or.inl ⟨h.2.symm, hi⟩
      · simp only [if_neg hn, if_neg hi, Except.ok.injEq, Prod.mk.injEq] at h
        exact Or.inr ⟨h.2.symm, hi⟩

/-- The divisors at the compounding call `i = 1`, `n = 2` in exact arithmetic: the future
value divides by `1` only; the present value divides by `1` and by `(1+1)^2`. -/
theorem growth_discount_divisors_witness :
    (∀ d ∈ [(1 : ℝ)], d ≠ 0) ∧
    (([(1 : ℝ), (1 + 1) ^ (2 : ℝ)] = [] ∧ (1 : ℝ) = 0) ∨
      ([(1 : ℝ), (1 + 1) ^ (2 : ℝ)] = [1, exactArith.pow (exactArith.add 1 1) 2] ∧
        (1 : ℝ) ≠ 0)) :=
  ⟨(growth_discount_divisors exactArith 100 1 2 10).2.2.1
      (100 * (1 + 1) ^ (2 : ℝ) + 10 * ((1 + 1) ^ (2 : ℝ) - 1) / 1) [1]
      (by norm_num [calculate_future_value_traced, exactArith]),
   (growth_discount_divisors exactArith 430 1 2 10).2.2.2
      ((430 - 10 * ((1 + 1) ^ (2 : ℝ) - 1) / 1) / (1 + 1) ^ (2 : ℝ))
      [1, (1 + 1) ^ (2 : ℝ)]
      (by norm_num [calculate_present_value_traced, exactArith])⟩

/-- C16, as stated, fails: for `fv = 1`, `pv = 2`, `i = -1/2` (and `pmt = 0`) the basic
build's `calculate_number_of_years` returns `ln(1/2)/ln(1/2) = 1`, while the Windows
build's `calculate_number_of_periods` throws. -/
theorem builds_differ_on_negative_rate :
    calculate_number_of_years 1 2 (-1 / 2) 0 = .ok 1 ∧
    failsInvalidArgument (Windows.calculate_number_of_periods 1 2 (-1 / 2)) = true := by
  have hlog : Real.log (1 / 2) ≠ 0 :=
    Real.log_ne_zero_of_pos_of_ne_one (by norm_num) (by norm_num)
  have hbase : (1 : ℝ) + -1 / 2 = 1 / 2 := by norm_num
  constructor
  · have hg : ¬ ((1 : ℝ) ≤ 0 ∨ (2 : ℝ) ≤ 0) := by norm_num
    have hi : ¬ ((-1 : ℝ) / 2 = 0) := by norm_num
    simp only [calculate_number_of_years, ne_eq, not_true_eq_false, if_false, hi, hg]
    rw [hbase, div_self hlog]
  · norm_num [Windows.calculate_number_of_periods, failsInvalidArgument]

/-- C16, amended: on every real input the two builds' `calculate_future_value`,
`calculate_present_value` and `calculate_interest_rate` (with `pmt = 0`) have the same
outcome; the number-of-periods solvers (with `pmt = 0`) have the same outcome whenever
`i ≥ 0` or `fv ≤ 0` or `pv ≤ 0`, and for `i < 0`, `fv > 0`, `pv > 0` the Windows build
throws while the basic build returns `ln(fv/pv)/ln(1+i)`. -/
theorem builds_agree (a i n pmt fv pv : ℝ) :
    sameOutcome (calculate_future_value a i n pmt) (Windows.calculate_future_value a i n pmt) ∧
    sameOutcome (calculate_present_value a i n pmt)
      (Windows.calculate_present_value a i n pmt) ∧
    sameOutcome (calculate_interest_rate fv pv n 0) (Windows.calculate_interest_rate fv pv n) ∧
    ((0 ≤ i ∨ fv ≤ 0 ∨ pv ≤ 0) →
      sameOutcome (calculate_number_of_years fv pv i 0)
        (Windows.calculate_number_of_periods fv pv i)) ∧
    (i < 0 → 0 < fv → 0 < pv →
      calculate_number_of_years fv pv i 0 = .ok (Real.log (fv / pv) / Real.log (1 + i)) ∧
      failsInvalidArgument (Windows.calculate_number_of_periods fv pv i) = true) := by
  refine ⟨?_, ?_, ?_, ?_, ?_⟩
  · unfold sameOutcome calculate_future_value Windows.calculate_future_value
    by_cases hn : n < 0
    · simp [hn, failsInvalidArgument]
    · by_cases hi : i = 0 <;> simp [hn, hi]
  · unfold sameOutcome calculate_present_value Windows.calculate_present_value
    by_cases hn : n < 0
    · simp [hn, failsInvalidArgument]
    · by_cases hi : i = 0 <;> simp [hn, hi]
  · unfold sameOutcome calculate_interest_rate Windows.calculate_interest_rate
    by_cases hn : n ≤ 0
    · simp [hn, failsInvalidArgument]
    · by_cases hv : pv ≤ 0
      · simp [hn, hv, failsInvalidArgument]
      · right
        refine ⟨100 * ((fv / pv) ^ (1 / n) - 1), by simp [hn, hv], ?_⟩
        have h1 : (1.0 : ℝ) = 1 := by norm_num
        simp [hn, hv, h1]
  · intro h
    unfold sameOutcome calculate_number_of_years Windows.calculate_number_of_periods
    by_cases hi0 : i = 0
    · simp [hi0, failsInvalidArgument]
    · by_cases hv : fv ≤ 0 ∨ pv ≤ 0
      · left
        by_cases hle : i ≤ 0 <;> simp [hi0, hv, hle, failsInvalidArgument]
      · have hpos : 0 ≤ i := by
          rcases h with h | h | h
          · exact h
          · exact absurd (Or.inl h) hv
          · exact absurd (Or.inr h) hv
        have hle : ¬ i ≤ 0 := fun hle => hi0 (le_antisymm hle hpos)
        right
        exact ⟨Real.log (fv / pv) / Real.log (1 + i), by simp [hi0, hv], by simp [hle, hv]⟩
  · intro hi hfv hpv
    constructor
    · simp [calculate_number_of_years, hi.ne, not_le.mpr hfv, not_le.mpr hpv]
    · simp [Windows.calculate_number_of_periods, hi.le, failsInvalidArgument]

/-- The two builds at concrete calls: the same outcome at the specification's sample call
`number_of_periods(2000, 1000, 0.07)`, and different outcomes at the rate `-0.5`. -/
theorem builds_agree_witness :
    sameOutcome (calculate_number_of_years 2000 1000 0.07 0)
      (Windows.calculate_number_of_periods 2000 1000 0.07) ∧
    (calculate_number_of_years 2000 1000 (-0.5) 0
        = .ok (Real.log (2000 / 1000) / Real.log (1 + -0.5)) ∧
      failsInvalidArgument (Windows.calculate_number_of_periods 2000 1000 (-0.5)) = true) :=
  ⟨(builds_agree 100 0.07 10 0 2000 1000).2.2.2.1 (Or.inl (by norm_num)),
   (builds_agree 100 (-0.5) 10 0 2000 1000).2.2.2.2 (by norm_num) (by norm_num)
     (by norm_num)⟩

/-! ## The specification's sample values -/

/-- A non-negative `x` whose tenth power is below `y` is below the tenth root of `y`. -/
lemma lt_tenth_root {x y : ℝ} (hx : 0 ≤ x) (h : x ^ (10 : ℕ) < y) :
    x < y ^ ((1 : ℝ) / 10) := by
  have hroot : (x ^ (10 : ℕ)) ^ ((1 : ℝ) / 10) = x := by
    rw [← Real.rpow_natCast, ← Real.rpow_mul hx]
    norm_num
  calc x = (x ^ (10 : ℕ)) ^ ((1 : ℝ) / 10) := hroot.symm
    _ < y ^ ((1 : ℝ) / 10) := Real.rpow_lt_rpow (pow_nonneg hx 10) h (by norm_num)

/-- A non-negative `x` whose tenth power is above `y ≥ 0` is above the tenth root of `y`. -/
lemma tenth_root_lt {x y : ℝ} (hx : 0 ≤ x) (hy : 0 ≤ y) (h : y < x ^ (10 : ℕ)) :
    y ^ ((1 : ℝ) / 10) < x := by
  have hroot : (x ^ (10 : ℕ)) ^ ((1 : ℝ) / 10) = x := by
    rw [← Real.rpow_natCast, ← Real.rpow_mul hx]
    norm_num
  calc y ^ ((1 : ℝ) / 10) < (x ^ (10 : ℕ)) ^ ((1 : ℝ) / 10) :=
        Real.rpow_lt_rpow hy h (by norm_num)
    _ = x := hroot

/-- With a base `b > 1`: from `b^p < x^q` follows `p/q < ln x / ln b`. -/
lemma div_lt_log_div_log {b x : ℝ} (hb : 1 < b) (p q : ℕ) (hq : 0 < q)
    (h : b ^ p < x ^ q) : (p : ℝ) / q < Real.log x / Real.log b := by
  have hlb : 0 < Real.log b := Real.log_pos hb
  have hq' : (0 : ℝ) < q := Nat.cast_pos.mpr hq
  have hlog := Real.log_lt_log (pow_pos (by linarith) p) h
  rw [Real.log_pow, Real.log_pow] at hlog
  rw [div_lt_div_iff₀ hq' hlb]
  linarith

/-- With a base `b > 1`: from `x^q < b^p` follows `ln x / ln b < p/q`. -/
lemma log_div_log_lt_div {b x : ℝ} (hb : 1 < b) (hx : 0 < x) (p q : ℕ) (hq : 0 < q)
    (h : x ^ q < b ^ p) : Real.log x / Real.log b < (p : ℝ) / q := by
  have hlb : 0 < Real.log b := Real.log_pos hb
  have hq' : (0 : ℝ) < q := Nat.cast_pos.mpr hq
  have hlog := Real.log_lt_log (pow_pos hx q) h
  rw [Real.log_pow, Real.log_pow] at hlog
  rw [div_lt_div_iff₀ hlb hq']
  linarith

/-- C12: `calculate_future_value(1000, 0.08, 10, 0)` returns, its value is
`1000·1.08^10`, and that value is within `0.005` of `2158.92`. -/
theorem future_value_sample :
    ∃ v, calculate_future_value 1000 0.08 10 0 = .ok v ∧
      v = 1000 * (1.08 : ℝ) ^ (10 : ℝ) ∧ |v - 2158.92| < 0.005 := by
  have hpow : (1.08 : ℝ) ^ (10 : ℝ) = (1.08 : ℝ) ^ (10 : ℕ) := by
    rw [← Real.rpow_natCast]
    norm_num
  refine ⟨1000 * (1.08 : ℝ) ^ (10 : ℝ), ?_, rfl, ?_⟩
  · have hbase : (1 : ℝ) + 0.08 = 1.08 := by norm_num
    have hi : ¬ ((0.08 : ℝ) = 0) := by norm_num
    have hn : ¬ ((10 : ℝ) < 0) := by norm_num
    simp only [calculate_future_value, hn, hi, if_false, zero_mul, zero_div, add_zero, hbase]
  · rw [hpow, abs_lt]
    constructor <;> norm_num

/-- C13: `calculate_interest_rate(2000, 1000, 10, 0)` returns, its value is
`100·(2^(1/10) − 1)`, and that value is within `0.0005` of `7.177`. -/
theorem interest_rate_sample :
    ∃ v, calculate_interest_rate 2000 1000 10 0 = .ok v ∧
      v = 100 * ((2 : ℝ) ^ ((1 : ℝ) / 10) - 1) ∧ |v - 7.177| < 0.0005 := by
  have hlo : (1.071766 : ℝ) < (2 : ℝ) ^ ((1 : ℝ) / 10) :=
    lt_tenth_root (by norm_num) (by norm_num)
  have hhi : (2 : ℝ) ^ ((1 : ℝ) / 10) < 1.071774 :=
    tenth_root_lt (by norm_num) (by norm_num) (by norm_num)
  refine ⟨100 * ((2 : ℝ) ^ ((1 : ℝ) / 10) - 1), ?_, rfl, ?_⟩
  · have hq : (2000 : ℝ) / 1000 = 2 := by norm_num
    have hn : ¬ ((10 : ℝ) ≤ 0) := by norm_num
    have hv : ¬ ((1000 : ℝ) ≤ 0) := by norm_num
    simp only [calculate_interest_rate, ne_eq, not_true_eq_false, if_false, hn, hv, hq]
  · rw [abs_lt]
    constructor <;> linarith

/-- C14: `calculate_number_of_years(2000, 1000, 0.07, 0)` and the Windows build's
`calculate_number_of_periods(2000, 1000, 0.07)` return, their value is `ln 2 / ln 1.07`,
and that value is within `0.0005` of `10.245`. -/
theorem number_of_periods_sample :
    ∃ v, calculate_number_of_years 2000 1000 0.07 0 = .ok v ∧
      Windows.calculate_number_of_periods 2000 1000 0.07 = .ok v ∧
      v = Real.log 2 / Real.log 1.07 ∧ |v - 10.245| < 0.0005 := by
  have hlo : ((963 : ℕ) : ℝ) / (94 : ℕ) < Real.log 2 / Real.log 1.07 :=
    div_lt_log_div_log (by norm_num) 963 94 (by norm_num) (by norm_num)
  have hhi : Real.log 2 / Real.log 1.07 < ((502 : ℕ) : ℝ) / (49 : ℕ) :=
    log_div_log_lt_div (by norm_num) (by norm_num) 502 49 (by norm_num) (by norm_num)
  have hq : (2000 : ℝ) / 1000 = 2 := by norm_num
  have hbase : (1 : ℝ) + 0.07 = 1.07 := by norm_num
  have hv : ¬ ((2000 : ℝ) ≤ 0 ∨ (1000 : ℝ) ≤ 0) := by norm_num
  refine ⟨Real.log 2 / Real.log 1.07, ?_, ?_, rfl, ?_⟩
  · have hi : ¬ ((0.07 : ℝ) = 0) := by norm_num
    simp only [calculate_number_of_years, ne_eq, not_true_eq_false, if_false, hi, hv, hq,
      hbase]
  · have hi : ¬ ((0.07 : ℝ) ≤ 0) := by norm_num
    simp only [Windows.calculate_number_of_periods, if_false, hi, hv, hq, hbase]
  · rw [abs_lt]
    push_cast at hlo hhi
    constructor
    · linarith
    · linarith

/-! ## The zero-rate branch is the limit of the general branch -/

/-- The growth factor `(1+i)^n` has derivative `n` in `i` at `i = 0`. -/
lemma hasDerivAt_growth_factor (n : ℝ) : HasDerivAt (fun i : ℝ => (1 + i) ^ n) n 0 := by
  have hlin : HasDerivAt (fun i : ℝ => 1 + i) 1 0 := by
    simpa using (hasDerivAt_id (0 : ℝ)).const_add 1
  have hpow := hlin.rpow_const (p := n) (Or.inl (by norm_num))
  simpa using hpow

/-- The general-branch value of `calculate_future_value` tends to `pv + pmt·n` as the
rate tends to `0` through non-zero values. -/
lemma tendsto_general_branch (pv pmt n : ℝ) :
    Filter.Tendsto (fun i : ℝ => pv * (1 + i) ^ n + pmt * ((1 + i) ^ n - 1) / i)
      (nhdsWithin 0 {0}ᶜ) (nhds (pv + pmt * n)) := by
  have hderiv := hasDerivAt_growth_factor n
  have hslope : Filter.Tendsto (fun i : ℝ => ((1 + i) ^ n - 1) / i)
      (nhdsWithin 0 {0}ᶜ) (nhds n) := by
    refine (hasDerivAt_iff_tendsto_slope.mp hderiv).congr (fun i => ?_)
    simp [slope_def_field]
  have hfactor : Filter.Tendsto (fun i : ℝ => (1 + i) ^ n) (nhdsWithin 0 {0}ᶜ) (nhds 1) := by
    have hc := hderiv.continuousAt.tendsto
    simp only [add_zero, Real.one_rpow] at hc
    exact tendsto_nhdsWithin_of_tendsto_nhds hc
  have hsum : Filter.Tendsto
      (fun i : ℝ => pv * (1 + i) ^ n + pmt * (((1 + i) ^ n - 1) / i))
      (nhdsWithin 0 {0}ᶜ) (nhds (pv * 1 + pmt * n)) :=
    (tendsto_const_nhds.mul hfactor).add (tendsto_const_nhds.mul hslope)
  rw [mul_one] at hsum
  refine hsum.congr (fun i => ?_)
  rw [mul_div_assoc]

/-- C18: for `n ≥ 0` the general-branch value `pv·(1+i)^n + pmt·((1+i)^n − 1)/i` tends to
the zero-rate value `pv + pmt·n` as `i` tends to `0` through non-zero values; the call
`calculate_future_value(pv, i, n, pmt)` returns for every `i`, and the returned value, as
a function of `i`, is continuous at `i = 0`. -/
theorem future_value_continuous_at_zero_rate (pv pmt n : ℝ) (hn : 0 ≤ n) :
    Filter.Tendsto (fun i : ℝ => pv * (1 + i) ^ n + pmt * ((1 + i) ^ n - 1) / i)
      (nhdsWithin 0 {0}ᶜ) (nhds (pv + pmt * n)) ∧
    ∃ f : ℝ → ℝ, (∀ i, calculate_future_value pv i n pmt = .ok (f i)) ∧
      f 0 = pv + pmt * n ∧
      (∀ i, i ≠ 0 → f i = pv * (1 + i) ^ n + pmt * ((1 + i) ^ n - 1) / i) ∧
      ContinuousAt f 0 := by
  have hlim := tendsto_general_branch pv pmt n
  refine ⟨hlim, fun i => if i = 0 then pv + pmt * n
      else pv * (1 + i) ^ n + pmt * ((1 + i) ^ n - 1) / i, ?_, ?_, ?_, ?_⟩
  · intro i
    unfold calculate_future_value
    by_cases hi : i = 0 <;> simp [not_lt.mpr hn, hi]
  · simp
  · intro i hi
    simp [hi]
  · rw [← continuousWithinAt_compl_self]
    have hval : (fun i : ℝ => if i = 0 then pv + pmt * n
        else pv * (1 + i) ^ n + pmt * ((1 + i) ^ n - 1) / i) 0 = pv + pmt * n := by simp
    unfold ContinuousWithinAt
    rw [hval]
    refine hlim.congr' ?_
    filter_upwards [self_mem_nhdsWithin] with i hi
    have hi0 : i ≠ 0 := hi
    simp [hi0]

/-- Continuity in the rate at `i = 0` for `pv = 100`, `pmt = 10`, `n = 5`, where the
zero-rate value is `100 + 10·5`. -/
theorem future_value_continuous_at_zero_rate_witness :
    Filter.Tendsto (fun i : ℝ => 100 * (1 + i) ^ (5 : ℝ) + 10 * ((1 + i) ^ (5 : ℝ) - 1) / i)
      (nhdsWithin 0 {0}ᶜ) (nhds (100 + 10 * 5)) ∧
    ∃ f : ℝ → ℝ, (∀ i, calculate_future_value 100 i 5 10 = .ok (f i)) ∧
      f 0 = 100 + 10 * 5 ∧
      (∀ i, i ≠ 0 → f i = 100 * (1 + i) ^ (5 : ℝ) + 10 * ((1 + i) ^ (5 : ℝ) - 1) / i) ∧
      ContinuousAt f 0 :=
  future_value_continuous_at_zero_rate 100 10 5 (by norm_num)

/-! ## The validated input loop -/

/-- An invalid entry at the head of the input is skipped: the prompt and the entry's
error message are written, and the loop goes on with the remaining entries. -/
lemma getDouble_skip {α : Type} [LinearOrder α] [Zero α] (prompt : String)
    (positive nonzero : Bool) (e : Option α) (rest : List (Option α))
    (he : invalidEntry positive nonzero e = true) :
    getDouble prompt positive nonzero (e :: rest)
      = (prompt :: errorMessage positive e :: (getDouble prompt positive nonzero rest).1,
          (getDouble prompt positive nonzero rest).2) := by
  cases e with
  | none => simp only [getDouble, errorMessage]
  | some v =>
    simp only [invalidEntry, Bool.or_eq_true, Bool.and_eq_true, decide_eq_true_eq] at he
    by_cases h1 : positive = true ∧ v < 0
    · simp only [getDouble, errorMessage, if_pos h1]
    · have h2 : nonzero = true ∧ v = 0 := he.resolve_left h1
      simp only [getDouble, errorMessage, if_neg h1, if_pos h2]

/-- A valid entry at the head of the input is returned, after one prompt. -/
lemma getDouble_accept {α : Type} [LinearOrder α] [Zero α] (prompt : String)
    (positive nonzero : Bool) (v : α) (rest : List (Option α))
    (hv : invalidEntry positive nonzero (some v) = false) :
    getDouble prompt positive nonzero (some v :: rest) = ([prompt], some (v, rest)) := by
  simp only [invalidEntry, Bool.or_eq_false_iff, Bool.and_eq_false_iff,
    decide_eq_false_iff_not] at hv
  have h1 : ¬ (positive = true ∧ v < 0) := by
    rintro ⟨hp, hlt⟩
    rcases hv.1 with h | h
    · simp [hp] at h
    · exact h hlt
  have h2 : ¬ (nonzero = true ∧ v = 0) := by
    rintro ⟨hp, hz⟩
    rcases hv.2 with h | h
    · simp [hp] at h
    · exact h hz
  simp [getDouble, h1, h2]

/-- Skipping a whole prefix of invalid entries, when what follows makes the loop write
the prompt once: the output is the re-prompting output of the prefix. -/
lemma getDouble_skip_all {α : Type} [LinearOrder α] [Zero α] (prompt : String)
    (positive nonzero : Bool) (skipped tail : List (Option α))
    (hs : ∀ e ∈ skipped, invalidEntry positive nonzero e = true)
    (ht : (getDouble prompt positive nonzero tail).1 = [prompt]) :
    getDouble prompt positive nonzero (skipped ++ tail)
      = (repromptOutput prompt positive skipped,
          (getDouble prompt positive nonzero tail).2) := by
  induction skipped with
  | nil =>
    rw [List.nil_append, repromptOutput, ← ht]
  | cons e es ih =>
    have hrest := ih (fun x hx => hs x (List.mem_cons_of_mem e hx))
    rw [List.cons_append,
      getDouble_skip prompt positive nonzero e (es ++ tail) (hs e (List.mem_cons_self e es)),
      hrest, repromptOutput]

/-- Whatever `getDouble` returns was a valid entry. -/
lemma getDouble_returns_valid {α : Type} [LinearOrder α] [Zero α] (prompt : String)
    (positive nonzero : Bool) (entries : List (Option α)) (v : α) (rest : List (Option α))
    (h : (getDouble prompt positive nonzero entries).2 = some (v, rest)) :
    invalidEntry positive nonzero (some v) = false := by
  induction entries with
  | nil => simp [getDouble] at h
  | cons e es ih =>
    by_cases he : invalidEntry positive nonzero e = true
    · rw [getDouble_skip prompt positive nonzero e es he] at h
      exact ih h
    · cases e with
      | none => simp [invalidEntry] at he
      | some w =>
        have hw : invalidEntry positive nonzero (some w) = false := by
          simpa using he
        rw [getDouble_accept prompt positive nonzero w es hw] at h
        simp only [Option.some.injEq, Prod.mk.injEq] at h
        rw [← h.1]
        exact hw

/-- C15: `getDouble` skips each invalid entry (non-numeric, or negative when `positive` is
set, or zero when `nonzero` is set) and returns the first entry that is none of these,
leaving the later entries unread; what it writes is, for each skipped entry, the prompt
followed by that entry's error message, and then the prompt once more. When every entry
is invalid it writes the same and does not return: it has prompted again and waits. Any
returned value `v` is not negative when `positive` is set (zero passes that test) and is
non-zero when `nonzero` is set. -/
theorem getDouble_returns_first_valid {α : Type} [LinearOrder α] [Zero α] (prompt : String)
    (positive nonzero : Bool) :
    (∀ (skipped : List (Option α)) (v : α) (rest : List (Option α)),
      (∀ e ∈ skipped, invalidEntry positive nonzero e = true) →
      invalidEntry positive nonzero (some v) = false →
      getDouble prompt positive nonzero (skipped ++ some v :: rest)
        = (repromptOutput prompt positive skipped, some (v, rest))) ∧
    (∀ (entries : List (Option α)),
      (∀ e ∈ entries, invalidEntry positive nonzero e = true) →
      getDouble prompt positive nonzero entries
        = (repromptOutput prompt positive entries, none)) ∧
    (∀ (entries : List (Option α)) (v : α) (rest : List (Option α)),
      (getDouble prompt positive nonzero entries).2 = some (v, rest) →
      (positive = true → 0 ≤ v) ∧ (nonzero = true → v ≠ 0)) ∧
    (∀ (e : Option α) (es : List (Option α)),
      repromptOutput prompt positive (e :: es)
        = prompt :: errorMessage positive e :: repromptOutput prompt positive es ∧
      errorMessage positive e ∈
        ["Invalid input. Please enter a numeric value.\n",
          "Value must be positive. Try again.\n",
          "Value must be non-zero. Try again.\n"]) := by
  refine ⟨?_, ?_, ?_, ?_⟩
  · intro skipped v rest hs hv
    have hacc := getDouble_accept prompt positive nonzero v rest hv
    rw [getDouble_skip_all prompt positive nonzero skipped (some v :: rest) hs
      (by rw [hacc]), hacc]
  · intro entries hs
    have hskip := getDouble_skip_all prompt positive nonzero entries [] hs
      (by simp [getDouble])
    rw [List.append_nil] at hskip
    rw [hskip]
    simp [getDouble]
  · intro entries v rest h
    have hv := getDouble_returns_valid prompt positive nonzero entries v rest h
    simp only [invalidEntry, Bool.or_eq_false_iff, Bool.and_eq_false_iff,
      decide_eq_false_iff_not] at hv
    constructor
    · intro hp
      rcases hv.1 with h1 | h1
      · simp [hp] at h1
      · exact not_lt.mp h1
    · intro hz
      rcases hv.2 with h1 | h1
      · simp [hz] at h1
      · exact h1
  · intro e es
    refine ⟨by rw [repromptOutput], ?_⟩
    cases e with
    | none => simp [errorMessage]
    | some v =>
      by_cases h1 : positive = true ∧ v < 0
      · simp only [errorMessage, if_pos h1]
        simp
      · simp only [errorMessage, if_neg h1]
        simp

/-- The input loop on the entries `abc`, `-3`, `0`, `5`, `7` with both flags set: the
first three are skipped, each with its prompt and error message, `5` is returned and `7`
is left unread; on `abc`, `-3`, `0` alone the call has prompted a fourth time and waits;
and with `positive` alone the entry `0` is returned. -/
theorem getDouble_returns_first_valid_witness :
    getDouble "Enter: " true true [none, some (-3 : ℝ), some 0, some 5, some 7]
      = (["Enter: ", "Invalid input. Please enter a numeric value.\n",
          "Enter: ", "Value must be positive. Try again.\n",
          "Enter: ", "Value must be non-zero. Try again.\n", "Enter: "],
        some (5, [some 7])) ∧
    getDouble "Enter: " true true [none, some (-3 : ℝ), some 0]
      = (["Enter: ", "Invalid input. Please enter a numeric value.\n",
          "Enter: ", "Value must be positive. Try again.\n",
          "Enter: ", "Value must be non-zero. Try again.\n", "Enter: "], none) ∧
    (getDouble "Enter: " true false [none, some (-3 : ℝ), some 0, some 5, some 7]).2
      = some (0, [some 5, some 7]) :=
  ⟨((getDouble_returns_first_valid "Enter: " true true).1
      [none, some (-3 : ℝ), some 0] 5 [some 7]
      (by intro e he; simp at he; rcases he with h | h | h <;> subst h <;> simp [invalidEntry])
      (by simp [invalidEntry])).trans (by norm_num [repromptOutput, errorMessage]),
   ((getDouble_returns_first_valid "Enter: " true true).2.1 [none, some (-3 : ℝ), some 0]
      (by intro e he; simp at he; rcases he with h | h | h <;> subst h <;> simp [invalidEntry])
      ).trans (by norm_num [repromptOutput, errorMessage]),
   congrArg Prod.snd ((getDouble_returns_first_valid "Enter: " true false).1
      [none, some (-3 : ℝ)] 0 [some 5, some 7]
      (by intro e he; simp at he; rcases he with h | h <;> subst h <;> simp [invalidEntry])
      (by simp [invalidEntry]))⟩

/-! ## The menu index -/

/-- An arithmetic result within the 32-bit range is held unchanged. -/
lemma wrapInt_of_in_range (x : Int) (h0 : -2147483648 ≤ x) (h1 : x < 2147483648) :
    Windows.wrapInt x = x := by
  unfold Windows.wrapInt
  omega

/-- While `numOptions ≤ 2^30`, the up-arrow update on an index in range does not overflow
and gives `(selected − 1) mod numOptions`. -/
lemma menu_up_eq (numOptions selected : Int) (hn : 0 < numOptions)
    (hmax : numOptions ≤ 1073741824) (h0 : 0 ≤ selected) (h1 : selected < numOptions) :
    (Windows.wrapInt (Windows.wrapInt (selected - 1) + numOptions)).tmod numOptions
      = (selected - 1) % numOptions := by
  rw [wrapInt_of_in_range (selected - 1) (by omega) (by omega),
    wrapInt_of_in_range (selected - 1 + numOptions) (by omega) (by omega),
    Int.tmod_eq_emod (by omega) (by omega), Int.add_emod_self]

/-- While `numOptions ≤ 2^30`, the down-arrow update on an index in range does not
overflow and gives `(selected + 1) mod numOptions`. -/
lemma menu_down_eq (numOptions selected : Int) (hn : 0 < numOptions)
    (hmax : numOptions ≤ 1073741824) (h0 : 0 ≤ selected) (h1 : selected < numOptions) :
    (Windows.wrapInt (selected + 1)).tmod numOptions = (selected + 1) % numOptions := by
  rw [wrapInt_of_in_range (selected + 1) (by omega) (by omega),
    Int.tmod_eq_emod (by omega) (by omega)]

/-- The digit value of a digit key, and the index it selects, do not overflow. -/
lemma menu_digit_eq (key : Int) (hd : Windows.isdigit key = true) :
    Windows.wrapInt (key - 48) = key - 48 ∧
      (1 ≤ key - 48 → Windows.wrapInt (key - 48 - 1) = key - 48 - 1) := by
  simp only [Windows.isdigit, Bool.and_eq_true, decide_eq_true_eq] at hd
  exact ⟨wrapInt_of_in_range _ (by omega) (by omega),
    fun _ => wrapInt_of_in_range _ (by omega) (by omega)⟩

/-- Started with an index in range and `numOptions ≤ 2^30`, the loop of `menu_selection`
only ever displays and returns indices in range (by induction on a bound of the number
of keys). -/
lemma menu_selection_loop_in_range (numOptions : Int) (hn : 0 < numOptions)
    (hmax : numOptions ≤ 1073741824) :
    ∀ (m : ℕ) (keys : List Int) (selected : Int), keys.length ≤ m →
      0 ≤ selected → selected < numOptions →
      (∀ s ∈ (Windows.menu_selection_loop numOptions selected keys).1,
        0 ≤ s ∧ s < numOptions) ∧
      (∀ r, (Windows.menu_selection_loop numOptions selected keys).2 = some r →
        0 ≤ r ∧ r < numOptions) := by
  intro m
  induction m with
  | zero =>
    intro keys selected hlen h0 h1
    have hnil : keys = [] := List.length_eq_zero.mp (Nat.le_zero.mp hlen)
    subst hnil
    simp [Windows.menu_selection_loop, h0, h1]
  | succ m ih =>
    intro keys selected hlen h0 h1
    cases keys with
    | nil => simp [Windows.menu_selection_loop, h0, h1]
    | cons key rest =>
      have hrest : rest.length ≤ m := by
        simp only [List.length_cons] at hlen
        omega
      unfold Windows.menu_selection_loop
      by_cases hk : key = 224
      · cases rest with
        | nil => simp [if_pos hk, h0, h1]
        | cons key2 rest2 =>
          have hrest2 : rest2.length ≤ m := by
            simp only [List.length_cons] at hrest
            omega
          by_cases hup : key2 = 72
          · have hr := menu_up_eq numOptions selected hn hmax h0 h1
            have hi := ih rest2 _ hrest2 (Int.emod_nonneg (selected - 1) hn.ne')
              (Int.emod_lt_of_pos (selected - 1) hn)
            simp only [if_pos hk, if_pos hup, List.mem_cons, hr]
            exact ⟨fun s hs => hs.elim (fun e => e ▸ ⟨h0, h1⟩) (hi.1 s), hi.2⟩
          · by_cases hdown : key2 = 80
            · have hr := menu_down_eq numOptions selected hn hmax h0 h1
              have hi := ih rest2 _ hrest2 (Int.emod_nonneg (selected + 1) hn.ne')
                (Int.emod_lt_of_pos (selected + 1) hn)
              simp only [if_pos hk, if_neg hup, if_pos hdown, List.mem_cons, hr]
              exact ⟨fun s hs => hs.elim (fun e => e ▸ ⟨h0, h1⟩) (hi.1 s), hi.2⟩
            · have hi := ih rest2 selected hrest2 h0 h1
              simp only [if_pos hk, if_neg hup, if_neg hdown, List.mem_cons]
              exact ⟨fun s hs => hs.elim (fun e => e ▸ ⟨h0, h1⟩) (hi.1 s), hi.2⟩
      · by_cases henter : key = 13
        · simp [if_neg hk, if_pos henter, h0, h1]
        · have hi := ih rest selected hrest h0 h1
          by_cases hd : Windows.isdigit key = true
          · have hdig := menu_digit_eq key hd
            rw [hdig.1]
            by_cases hnum : key - 48 ≥ 1 ∧ key - 48 ≤ numOptions
            · simp only [if_neg hk, if_neg henter, if_pos hd, if_pos hnum,
                List.mem_singleton, Option.some.injEq, hdig.2 hnum.1]
              refine ⟨fun s hs => hs ▸ ⟨h0, h1⟩, fun r hr => ?_⟩
              omega
            · simp only [if_neg hk, if_neg henter, if_pos hd, if_neg hnum, List.mem_cons]
              exact ⟨fun s hs => hs.elim (fun e => e ▸ ⟨h0, h1⟩) (hi.1 s), hi.2⟩
          · simp only [if_neg hk, if_neg henter, if_neg hd, List.mem_cons]
            exact ⟨fun s hs => hs.elim (fun e => e ▸ ⟨h0, h1⟩) (hi.1 s), hi.2⟩

/-- C19, as stated, fails: with `numOptions = 2^30 + 1` the first up arrow moves the index
from `0` to `2^30`, and at the second one `selected - 1 + numOptions = 2^31` does not fit a
32-bit `int`; after wrap-around the index is `-1073741823`, which ENTER returns. -/
theorem menu_selection_index_overflows :
    (1 : Int) ≤ 1073741825 ∧
    Windows.menu_selection 1073741825 [224, 72, 224, 72, 13]
      = ([0, 1073741824, -1073741823], some (-1073741823)) ∧
    (-1073741823 : Int) < 0 := by
  refine ⟨by decide, ?_, by decide⟩
  decide

/-- C19, amended: for `1 ≤ numOptions ≤ 2^30` and every sequence of key codes, every index
`menu_selection` displays and the index it returns lie in `0 .. numOptions-1`. From an
index in range the up and down arrows move to `(selected − 1) mod numOptions` and
`(selected + 1) mod numOptions`; a digit key `k` returns `k − 1` exactly when
`1 ≤ k ≤ numOptions` and is ignored otherwise; ENTER returns the current index. -/
theorem menu_selection_index_in_range (numOptions : Int) (hn : 1 ≤ numOptions)
    (hmax : numOptions ≤ 2 ^ 30) (keys : List Int) :
    (∀ s ∈ (Windows.menu_selection numOptions keys).1, 0 ≤ s ∧ s < numOptions) ∧
    (∀ r, (Windows.menu_selection numOptions keys).2 = some r → 0 ≤ r ∧ r < numOptions) ∧
    (∀ (selected : Int) (rest : List Int), 0 ≤ selected → selected < numOptions →
      Windows.menu_selection_loop numOptions selected (224 :: 72 :: rest)
        = (selected ::
            (Windows.menu_selection_loop numOptions ((selected - 1) % numOptions) rest).1,
          (Windows.menu_selection_loop numOptions ((selected - 1) % numOptions) rest).2) ∧
      Windows.menu_selection_loop numOptions selected (224 :: 80 :: rest)
        = (selected ::
            (Windows.menu_selection_loop numOptions ((selected + 1) % numOptions) rest).1,
          (Windows.menu_selection_loop numOptions ((selected + 1) % numOptions) rest).2)) ∧
    (∀ (selected k : Int) (rest : List Int), 0 ≤ k → k ≤ 9 →
      Windows.menu_selection_loop numOptions selected ((48 + k) :: rest)
        = if 1 ≤ k ∧ k ≤ numOptions then ([selected], some (k - 1))
          else (selected :: (Windows.menu_selection_loop numOptions selected rest).1,
            (Windows.menu_selection_loop numOptions selected rest).2)) ∧
    (∀ (selected : Int) (rest : List Int),
      Windows.menu_selection_loop numOptions selected (13 :: rest)
        = ([selected], some selected)) := by
  have hpos : 0 < numOptions := by omega
  have hmax' : numOptions ≤ 1073741824 := by
    norm_num at hmax
    exact hmax
  have hinv := menu_selection_loop_in_range numOptions hpos hmax' keys.length keys 0
    (le_refl _) (le_refl 0) hpos
  refine ⟨hinv.1, hinv.2, ?_, ?_, ?_⟩
  · intro selected rest h0 h1
    have hup := menu_up_eq numOptions selected hpos hmax' h0 h1
    have hdown := menu_down_eq numOptions selected hpos hmax' h0 h1
    constructor
    · rw [Windows.menu_selection_loop.eq_def]
      simp only [if_true, hup]
    · rw [Windows.menu_selection_loop.eq_def]
      have h80 : ¬ ((80 : Int) = 72) := by decide
      simp only [if_true, if_neg h80, hdown]
  · intro selected k rest hk0 hk9
    have h224 : ¬ (48 + k = 224) := by omega
    have h13 : ¬ (48 + k = 13) := by omega
    have hdigit : Windows.isdigit (48 + k) = true := by
      simp only [Windows.isdigit, Bool.and_eq_true, decide_eq_true_eq]
      omega
    have hsub : 48 + k - 48 = k := by omega
    have hdig := menu_digit_eq (48 + k) hdigit
    rw [hsub] at hdig
    rw [Windows.menu_selection_loop.eq_def]
    simp only [if_neg h224, if_neg h13, if_pos hdigit, hsub, ge_iff_le, hdig.1]
    by_cases hk : 1 ≤ k ∧ k ≤ numOptions
    · rw [if_pos hk, if_pos hk, hdig.2 hk.1]
    · rw [if_neg hk, if_neg hk]
  · intro selected rest
    rw [Windows.menu_selection_loop.eq_def]
    have h224 : ¬ ((13 : Int) = 224) := by decide
    simp only [if_neg h224, if_true]

/-- The menu with four options on the keys up, down, `5`, `2`: the up arrow wraps from
`0` to `3`, the down arrow wraps back to `0`, the digit `5` is ignored, and the digit `2`
returns the index `1`, which is in range. -/
theorem menu_selection_index_in_range_witness :
    Windows.menu_selection 4 [224, 72, 224, 80, 53, 50] = ([0, 3, 0, 0], some 1) ∧
    ((0 : Int) ≤ 1 ∧ (1 : Int) < 4) :=
  ⟨by decide,
   (menu_selection_index_in_range 4 (by decide) (by decide) [224, 72, 224, 80, 53, 50]).2.1 1
     (by decide)⟩

end FinCalc
